import Mathlib

/-!
Shallow embedding of the websiteImages-Scraper repository.

The repository has three scripts built around the same design: a best-effort
extraction pipeline over a rendered page, a bounded retry loop, and a
bot-detection guard.

* `src/social_link_extractor.js` — `extractSocialLinks`: six heuristic
  strategies resolving the fields facebook/instagram/twitter/youtube/linkedin/
  contact, driven by a `while (attempts < maxRetries && !hasSocialLinks())`
  loop.
* `src/unnamed/part_001` — `scrapeFacebookProfile`: captcha guard after
  navigation, then a retry loop extracting profile fields.
* the second document of `src/social_link_extractor.js` — `scrapeLocalServices`:
  captcha guard, then a single in-browser scrape.

Rendered pages are modelled as records holding exactly the data the scripts
query from the browser (element handles, attribute values, serialized markup).
Browser-side failures that the scripts catch are modelled as explicit flags
(`gotoError`, `failHeaderQuery`).  JavaScript strings are Lean `String`s,
JS `null`/`undefined` results are `Option`, and mutation of the result object
is explicit state passing.
-/

/-- JS `hay.includes(needle)` helper: is `pre` a prefix of the second list
(character-exact comparison). -/
def startsL : List Char → List Char → Bool
  | [], _ => true
  | _ :: _, [] => false
  | a :: as, b :: bs => (a == b) && startsL as bs

/-- Case-insensitive variant of `startsL` (for JS regexes carrying the `i`
flag): characters are compared after `Char.toLower`. -/
def ciStartsL : List Char → List Char → Bool
  | [], _ => true
  | _ :: _, [] => false
  | a :: as, b :: bs => (a.toLower == b.toLower) && ciStartsL as bs

/-- JS `String.prototype.includes` over lists of characters. -/
def includesL (needle : List Char) : List Char → Bool
  | [] => startsL needle []
  | c :: cs => startsL needle (c :: cs) || includesL needle cs

/-- JS `hay.includes(needle)`. -/
def includesS (hay needle : String) : Bool :=
  includesL needle.data hay.data

/-- JS `s.toLowerCase()` in a form the kernel evaluates: `Char.toLower` mapped
over the character list. -/
def toLowerS (s : String) : String :=
  String.mk (s.data.map Char.toLower)

/-- JS `s.trim()` in a form the kernel evaluates: whitespace stripped from
both ends. -/
def trimS (s : String) : String :=
  String.mk
    (((s.data.dropWhile Char.isWhitespace).reverse.dropWhile
      Char.isWhitespace).reverse)

/-- Token builder for JS `s.split(',')`: split at every comma. -/
def splitCommaTok : List Char → List Char → List String
  | [], acc => [String.mk acc.reverse]
  | c :: cs, acc =>
    if c == ',' then String.mk acc.reverse :: splitCommaTok cs []
    else splitCommaTok cs (c :: acc)

/-- JS `s.split(',')` as used on the `og:see_also` content. -/
def splitComma (s : String) : List String :=
  splitCommaTok s.data []

/-- The six fields of the result object of `extractSocialLinks`
(`socialPlatforms` plus the `contact` key, source lines 41-45). -/
inductive SField where
  | facebook
  | instagram
  | twitter
  | youtube
  | linkedin
  | contact
deriving DecidableEq

/-- The string name of a field, as interpolated into `${platform}.com` checks
and the strategy-6 regex. -/
def platName : SField → String
  | .facebook => "facebook"
  | .instagram => "instagram"
  | .twitter => "twitter"
  | .youtube => "youtube"
  | .linkedin => "linkedin"
  | .contact => "contact"

/-- `const socialPlatforms = ['facebook', 'instagram', 'twitter', 'youtube',
'linkedin']` (source line 41). -/
def socialPlatforms : List SField :=
  [.facebook, .instagram, .twitter, .youtube, .linkedin]

/-- The result object of `extractSocialLinks`: exactly the five platform keys
plus `contact`, each a string, empty string meaning unresolved
(source lines 41-45). -/
structure SocialResult where
  facebook : String
  instagram : String
  twitter : String
  youtube : String
  linkedin : String
  contact : String
deriving DecidableEq

/-- Read `result[field]`. -/
def getF (r : SocialResult) : SField → String
  | .facebook => r.facebook
  | .instagram => r.instagram
  | .twitter => r.twitter
  | .youtube => r.youtube
  | .linkedin => r.linkedin
  | .contact => r.contact

/-- Write `result[field] = v`. -/
def setF (r : SocialResult) : SField → String → SocialResult
  | .facebook, v => { r with facebook := v }
  | .instagram, v => { r with instagram := v }
  | .twitter, v => { r with twitter := v }
  | .youtube, v => { r with youtube := v }
  | .linkedin, v => { r with linkedin := v }
  | .contact, v => { r with contact := v }

/-- The freshly initialized result object: every key the empty string
(source lines 41-45). -/
def initResult : SocialResult :=
  ⟨"", "", "", "", "", ""⟩

/-- `const hasSocialLinks = () => Object.values(result).some(value => value)`
(source line 48): true iff at least one of the six keys holds a non-empty
string. -/
def hasSocialLinks (r : SocialResult) : Bool :=
  !(r.contact == "") || !(r.facebook == "") || !(r.instagram == "") ||
    !(r.twitter == "") || !(r.youtube == "") || !(r.linkedin == "")

/-- Every field of the result record is resolved (non-empty): the strict
completeness predicate of the specification. -/
def Complete (r : SocialResult) : Prop :=
  ∀ F, getF r F ≠ ""

/-- The shared per-link platform update of the strategies (source lines 60-64,
107-111, 126-130, 151-155): for each platform in priority order, if the field
is still empty and the lowercased candidate contains `<platform>.com`, store
`value`. -/
def setPlatforms (lower value : String) (r : SocialResult) : SocialResult :=
  socialPlatforms.foldl
    (fun r p =>
      if getF r p = "" ∧ includesS lower (platName p ++ ".com") = true
      then setF r p value else r)
    r

/-- An `a[href]` element handle: its `href` attribute (`none` when the
attribute is absent) and its text content. -/
structure Anchor where
  href : Option String
  text : String

/-- The contact-link update inside `extractLinksFrom` (source lines 66-71):
store `href` when `result.contact` is empty and either the lowercased href
contains `/contact` or the lowercased link text contains `contact`. -/
def contactStep (r1 : SocialResult) (href : String) (a : Anchor) : SocialResult :=
  if getF r1 SField.contact = "" ∧
      (includesS (toLowerS href) "/contact" = true ∨
        includesS (toLowerS a.text) "contact" = true)
  then setF r1 SField.contact href else r1

/-- One iteration of the link loop of `extractLinksFrom` (source lines 53-72):
skip anchors with a missing or empty (falsy) href, otherwise run the platform
updates and then the contact update. -/
def anchorStep (r : SocialResult) (a : Anchor) : SocialResult :=
  match a.href with
  | none => r
  | some href =>
    if href = "" then r
    else contactStep (setPlatforms (toLowerS href) href r) href a

/-- `extractLinksFrom(element)` (source lines 51-73) over the anchor handles
the element yields. -/
def extractLinksFrom (anchors : List Anchor) (r : SocialResult) : SocialResult :=
  anchors.foldl anchorStep r

/-- JSON values as produced by `JSON.parse` on a `ld+json` script body. -/
inductive Json where
  | null
  | bool (b : Bool)
  | num (n : Int)
  | str (s : String)
  | arr (xs : List Json)
  | obj (fields : List (String × Json))

/-- JS truthiness of a parsed JSON value. -/
def jsTruthy : Json → Bool
  | .null => false
  | .bool b => b
  | .num n => !(n == 0)
  | .str s => !(s == "")
  | .arr _ => true
  | .obj _ => true

/-- JS truthiness where `none` stands for `undefined`. -/
def optTruthy : Option Json → Bool
  | none => false
  | some v => jsTruthy v

/-- Property lookup on a parsed JSON object body. -/
def lookupField : List (String × Json) → String → Option Json
  | [], _ => none
  | (k, v) :: fs, key => if k = key then some v else lookupField fs key

/-- JS property access `j[key]`: throws (a TypeError, caught by the script's
inner `catch`) when `j` is `null`, yields `undefined` on non-objects, and
looks the key up on objects. -/
def jsProp : Json → String → Except Unit (Option Json)
  | .null, _ => .error ()
  | .obj fs, key => .ok (lookupField fs key)
  | _, _ => .ok none

/-- Property access on a value already known to be truthy (hence not `null`):
total. -/
def jsPropOk : Json → String → Option Json
  | .obj fs, key => lookupField fs key
  | _, _ => none

/-- `let sameAs = jsonData.sameAs; if (!sameAs && Array.isArray(jsonData) &&
jsonData[0]) { sameAs = jsonData[0].sameAs; }` (source lines 98-101), given the
already-read `jsonData.sameAs`. -/
def ldSameAs (j : Json) (s0 : Option Json) : Option Json :=
  if optTruthy s0 = true then s0
  else
    match j with
    | .arr (x :: _) => if jsTruthy x = true then jsPropOk x "sameAs" else s0
    | _ => s0

/-- `const links = Array.isArray(sameAs) ? sameAs : [sameAs]` (source
line 104). -/
def ldLinkList : Json → List Json
  | .arr xs => xs
  | v => [v]

/-- One `sameAs` entry (source lines 105-112): `link.toLowerCase()` throws
(TypeError, caught by the inner `catch`) when the entry is not a string;
otherwise the platform updates run with the original string as value.  The
returned flag records whether the entry threw. -/
def applyLdLink (r : SocialResult) (link : Json) : SocialResult × Bool :=
  match link with
  | .str s => (setPlatforms (toLowerS s) s r, false)
  | _ => (r, true)

/-- The `for (const link of links)` loop over `sameAs` entries: a throwing
entry ends the loop for this script (the state mutated so far persists, the
inner `catch` swallows the error). -/
def applyLdLinks (r : SocialResult) : List Json → SocialResult
  | [] => r
  | l :: ls =>
    match applyLdLink r l with
    | (r1, true) => r1
    | (r1, false) => applyLdLinks r1 ls

/-- Processing of one `script[type="application/ld+json"]` element (source
lines 92-117).  A script is represented by its `JSON.parse` outcome:
`.error ()` when parsing threw (malformed block, ignored by the inner
`catch`). -/
def applyLdScript (r : SocialResult) (script : Except Unit Json) : SocialResult :=
  match script with
  | .error _ => r
  | .ok j =>
    match jsProp j "sameAs" with
    | .error _ => r
    | .ok s0 =>
      match ldSameAs j s0 with
      | none => r
      | some v =>
        if jsTruthy v = true then applyLdLinks r (ldLinkList v) else r

/-- Characters excluded by the `[^"'>]` regex class of strategy 6
(double quote, apostrophe, greater-than, compared by code point). -/
def isSpecialC (c : Char) : Bool :=
  c.toNat == 34 || c.toNat == 39 || c.toNat == 62

/-- Characters of the `[\w\./?=&%-]` regex class of strategy 6. -/
def isTailC (c : Char) : Bool :=
  c.isAlpha || c.isDigit || c == '_' || c == '.' || c == '/' ||
    c == '?' || c == '=' || c == '&' || c == '%' || c == '-'

/-- Greedy backtracking of `[^"'>]*` before the platform needle: the largest
offset `k` not exceeding the given bound at which the needle matches
(case-insensitively), scanning downward from the bound. -/
def greedyFind (needle body : List Char) : Nat → Option Nat
  | 0 => if ciStartsL needle body then some 0 else none
  | k + 1 =>
    if ciStartsL needle (body.drop (k + 1)) then some (k + 1)
    else greedyFind needle body k

/-- Match of the strategy-6 regex
`(?:https?:)?\/\/[^"'>]*<platform>\.com[\w\./?=&%-]*` (with the `i` flag,
source line 170) anchored at the head of `cs`: the length of the match when
one exists.  When the optional scheme group is present the empty alternative
cannot also succeed (the following `//` would have to start with an `h`), so
trying the longest scheme first is exact. -/
def matchAt (plat cs : List Char) : Option Nat :=
  let schemeLen :=
    if ciStartsL "https:".data cs then 6
    else if ciStartsL "http:".data cs then 5
    else 0
  let rest := cs.drop schemeLen
  if ciStartsL "//".data rest then
    let body := rest.drop 2
    let needle := plat ++ ".com".data
    match greedyFind needle body (body.takeWhile (fun c => !isSpecialC c)).length with
    | some k =>
      some (schemeLen + 2 + k + needle.length +
        ((body.drop (k + needle.length)).takeWhile isTailC).length)
    | none => none
  else none

/-- Leftmost match: `regex.exec(html)` scans start positions left to right and
returns the matched text `match[0]`. -/
def execFrom (plat : List Char) : List Char → Option (List Char)
  | [] => none
  | c :: cs =>
    match matchAt plat (c :: cs) with
    | some n => some ((c :: cs).take n)
    | none => execFrom plat cs

/-- `regex.exec(html)` for the per-platform regex of strategy 6, returning
`match[0]`. -/
def execPlatformRegex (plat html : String) : Option String :=
  (execFrom plat.data html.data).map fun l => String.mk l

/-- The rendered page as queried by `extractSocialLinks`: element-handle data
for each selector the script uses, the serialized markup for strategy 6, plus
the two failure flags the script can observe (`page.goto` rejecting, caught at
source line 197, and the `page.$('header')` query at source line 84 rejecting,
caught at source line 189). -/
structure Page where
  gotoError : Option String := none
  failHeaderQuery : Bool := false
  header : Option (List Anchor) := none
  footer : Option (List Anchor) := none
  jsonLdScripts : List (Except Unit Json) := []
  relMeLinks : List (Option String) := []
  twitterSiteMeta : Option (Option String) := none
  ogSeeAlso : Option (Option String) := none
  allAnchors : List Anchor := []
  html : String := ""

/-- Strategy 1 (source lines 83-88): `extractLinksFrom` over the header
element when present, then over the footer element when present. -/
def stratHeaderFooter (pg : Page) (r : SocialResult) : SocialResult :=
  match pg.footer with
  | some anchors =>
    extractLinksFrom anchors
      (match pg.header with
        | some hs => extractLinksFrom hs r
        | none => r)
  | none =>
    match pg.header with
    | some hs => extractLinksFrom hs r
    | none => r

/-- Strategy 2 (source lines 90-117): fold over the `ld+json` script
elements. -/
def stratJsonLd (pg : Page) (r : SocialResult) : SocialResult :=
  pg.jsonLdScripts.foldl applyLdScript r

/-- One `link[rel~="me"]` element (source lines 121-131): skip missing or
empty hrefs, otherwise the platform updates with the original href as
value. -/
def relMeStep (r : SocialResult) (h : Option String) : SocialResult :=
  match h with
  | none => r
  | some href => if href = "" then r else setPlatforms (toLowerS href) href r

/-- Strategy 3 (source lines 119-131): fold over the `rel="me"` link
elements. -/
def stratRelMe (pg : Page) (r : SocialResult) : SocialResult :=
  pg.relMeLinks.foldl relMeStep r

/-- First half of strategy 4 (source lines 134-141): the
`meta[name="twitter:site"]` content, stored trimmed into the twitter field
when the element exists, the field is empty and the content is truthy. -/
def stratTwitterMeta (pg : Page) (r : SocialResult) : SocialResult :=
  match pg.twitterSiteMeta with
  | none => r
  | some contentOpt =>
    if getF r SField.twitter = "" then
      match contentOpt with
      | some content =>
        if content = "" then r else setF r SField.twitter (trimS content)
      | none => r
    else r

/-- One comma-separated entry of the `og:see_also` content (source lines
149-156): platform updates checked on the lowercased entry, storing the
trimmed entry. -/
def ogStep (r : SocialResult) (link : String) : SocialResult :=
  setPlatforms (toLowerS link) (trimS link) r

/-- Second half of strategy 4 (source lines 143-158): the
`meta[property="og:see_also"]` content split on commas. -/
def stratOgSeeAlso (pg : Page) (r : SocialResult) : SocialResult :=
  match pg.ogSeeAlso with
  | none => r
  | some contentOpt =>
    match contentOpt with
    | some content =>
      if content = "" then r else (splitComma content).foldl ogStep r
    | none => r

/-- Strategy 5 (source lines 160-163): `extractLinksFrom(page)`, i.e. the
whole-document anchor scan. -/
def stratFullScan (pg : Page) (r : SocialResult) : SocialResult :=
  extractLinksFrom pg.allAnchors r

/-- One platform of strategy 6 (source lines 168-176): when the field is still
empty, `regex.exec(html)` and store `match[0]` on success. -/
def regexStep (html : String) (r : SocialResult) (p : SField) : SocialResult :=
  if getF r p = "" then
    match execPlatformRegex (platName p) html with
    | some m => setF r p m
    | none => r
  else r

/-- Strategy 6 (source lines 165-177): the raw-markup regex search over all
platforms. -/
def stratRegex (pg : Page) (r : SocialResult) : SocialResult :=
  socialPlatforms.foldl (regexStep pg.html) r

/-- The strategies of one pass in priority order (strategy 4 contributes two
reads: the twitter meta tag and the `og:see_also` list).  Each is the raw
heuristic without the pass-level `hasSocialLinks` guards. -/
def strategyFns (pg : Page) : List (SocialResult → SocialResult) :=
  [stratHeaderFooter pg, stratJsonLd pg, stratRelMe pg, stratTwitterMeta pg,
    stratOgSeeAlso pg, stratFullScan pg, stratRegex pg]

/-- The result state after strategies 1-4 of one pass (these run
unconditionally, source lines 83-158). -/
def after4 (pg : Page) (r : SocialResult) : SocialResult :=
  stratOgSeeAlso pg (stratTwitterMeta pg (stratRelMe pg (stratJsonLd pg
    (stratHeaderFooter pg r))))

/-- The state after strategy 5: `if (!hasSocialLinks()) await
extractLinksFrom(page)` (source lines 160-163). -/
def after5 (pg : Page) (r : SocialResult) : SocialResult :=
  if hasSocialLinks (after4 pg r) = true then after4 pg r
  else stratFullScan pg (after4 pg r)

/-- The state after strategy 6: `if (!hasSocialLinks())` regex search (source
lines 165-177). -/
def afterAll (pg : Page) (r : SocialResult) : SocialResult :=
  if hasSocialLinks (after5 pg r) = true then after5 pg r
  else stratRegex pg (after5 pg r)

/-- One pass of the pipeline, i.e. one iteration of the `try` body (source
lines 82-192).  When the initial `page.$('header')` query rejects, the whole
iteration throws before any strategy contributed; the `catch` at line 189
swallows the error and the loop continues.  The flag records whether the pass
threw. -/
def runPass (pg : Page) (r : SocialResult) : SocialResult × Bool :=
  if pg.failHeaderQuery then (r, true) else (afterAll pg r, false)

/-- The retry loop of `extractSocialLinks` (source lines 76-193), with the
attempt budget as fuel (`fuel = maxRetries - attempts`).  Yields the final
result, the number of passes run, and the list of `page.waitForTimeout`
durations performed between passes.  The `break` at line 182-184 fires exactly
when the `while` condition would stop the loop, so it only skips the wait; a
throwing pass skips the wait as well (the wait sits inside the `try`). -/
def loopAux (pg : Page) : Nat → SocialResult → SocialResult × Nat × List Nat
  | 0, r => (r, 0, [])
  | n + 1, r =>
    if hasSocialLinks r then (r, 0, [])
    else
      let p := runPass pg r
      let rest := loopAux pg n p.1
      (rest.1, rest.2.1 + 1,
        if p.2 || hasSocialLinks p.1 || n == 0 then rest.2.2
        else 1000 :: rest.2.2)

/-- The final result record of the retry loop started from the fresh
record. -/
def finalRecord (pg : Page) (n : Nat) : SocialResult :=
  (loopAux pg n initResult).1

/-- The options object accepted by the scrapers: `headless`, `timeout`,
`maxRetries`, and (for callers following the specification) `delayMs`; absent
keys are `none`. -/
structure SLOptions where
  headless : Option Bool := none
  timeout : Option Nat := none
  maxRetries : Option Nat := none
  delayMs : Option Nat := none

/-- The effective configuration after the defaults-then-spread merge.  A
caller-supplied `delayMs` key survives the object spread into the config
object, but no default exists for it and no code reads it. -/
structure SLConfig where
  headless : Bool
  timeout : Nat
  maxRetries : Nat
  delayMs : Option Nat

/-- `const config = { headless: true, timeout: 30000, maxRetries: 30,
...options }` (source lines 14-19 of `extractSocialLinks`). -/
def mkConfig (o : SLOptions) : SLConfig :=
  { headless := o.headless.getD true
    timeout := o.timeout.getD 30000
    maxRetries := o.maxRetries.getD 30
    delayMs := o.delayMs }

/-- Does the string start with `http://` or `https://` (the
`/^https?:\/\//i` test)? -/
def hasHttpScheme (s : String) : Bool :=
  ciStartsL "http://".data s.data || ciStartsL "https://".data s.data

/-- URL normalization of `extractSocialLinks` (source lines 22-25): trim, then
default the scheme to `http://`. -/
def normalizeUrl (targetUrl : String) : String :=
  let url := trimS targetUrl
  if hasHttpScheme url then url else "http://" ++ url

/-- The value returned by `extractSocialLinks`: the six-key result record on
every non-error exit, or the `{ error: message, url }` record built in the
outer `catch` (source lines 195-202). -/
inductive SLOutput where
  | record (r : SocialResult)
  | errorRecord (message : String) (url : String)
deriving DecidableEq

/-- One observed invocation of `extractSocialLinks`: its returned value, the
number of pipeline passes run, and the inter-pass wait durations. -/
structure SLRun where
  output : SLOutput
  passCount : Nat
  waits : List Nat
deriving DecidableEq

/-- `extractSocialLinks(targetUrl, options)` (source lines 12-206).  Only the
`page.goto` rejection reaches the outer `catch`: everything else inside the
loop is wrapped by the inner `try` at line 82. -/
def extractSocialLinks (targetUrl : String) (options : SLOptions) (pg : Page) :
    SLRun :=
  let config := mkConfig options
  let url := normalizeUrl targetUrl
  match pg.gotoError with
  | some message => ⟨.errorRecord message url, 0, []⟩
  | none =>
    let t := loopAux pg config.maxRetries initResult
    ⟨.record t.1, t.2.1, t.2.2⟩

/-- The profile record built by `scrapeFacebookProfile` (part_001 lines
154-163 and 177-186): eight string fields, empty string meaning not found. -/
structure FBProfile where
  pageName : String
  pageLikes : String
  pageFollowers : String
  phone : String
  email : String
  address : String
  website : String
  category : String
deriving DecidableEq

/-- The all-empty profile returned after exhausting every retry (part_001
lines 176-187). -/
def emptyFBProfile : FBProfile :=
  ⟨"", "", "", "", "", "", "", ""⟩

/-- Characters of the `[\w.-]` class of the website regex
(part_001 line 93). -/
def isWordDotDash (c : Char) : Bool :=
  c.isAlpha || c.isDigit || c == '_' || c == '.' || c == '-'

/-- The website test `/^[\w.-]+\.[a-z]{2,}$/i.test(trimmedText)` (part_001
line 93): some split point has a literal dot, a non-empty `[\w.-]` prefix
before it and at least two letters (and nothing else) after it. -/
def fbWebsiteMatch (s : String) : Bool :=
  (List.range s.data.length).any fun i =>
    ((s.data.drop i).take 1 == ['.']) && decide (1 ≤ i) &&
      (s.data.take i).all isWordDotDash &&
      decide (2 ≤ (s.data.drop (i + 1)).length) &&
      (s.data.drop (i + 1)).all Char.isAlpha

/-- One `span[dir="auto"]` element of the email/website scan (part_001 lines
83-96), folding the `(email, website)` pair: first span whose trimmed text
contains `@` and `.` wins the email; first span whose trimmed text passes the
website regex wins the website. -/
def fbSpanStep (ew : String × String) (text : String) : String × String :=
  let t := trimS text
  let email :=
    if ew.1 = "" ∧ includesS t "@" = true ∧ includesS t "." = true then t
    else ew.1
  let website := if ew.2 = "" ∧ fbWebsiteMatch t = true then t else ew.2
  (email, website)

/-- One contact-info div (part_001 lines 105-125): the indicator image handle
(`none` when `img.count() === 0`, inner `Option` for a missing `src`
attribute) and the first `span[dir="auto"]` handle (`none` when absent). -/
structure FBDiv where
  img : Option (Option String) := none
  span : Option String := none

/-- The phone/address fold over the contact divs (part_001 lines 105-125):
divs without the indicator image or without a span are skipped; the phone
indicator is a `Dc7-7AgwkwS.png` src substring, the address indicator
`8k_Y-oVxbuU.png`; first match wins each slot, storing the trimmed span
text. -/
def fbDivStep (pa : String × String) (d : FBDiv) : String × String :=
  match d.img with
  | none => pa
  | some srcOpt =>
    let imgSrc := srcOpt.getD ""
    match d.span with
    | none => pa
    | some spanText =>
      let phone :=
        if pa.1 = "" ∧ includesS imgSrc "Dc7-7AgwkwS.png" = true
        then trimS spanText else pa.1
      let address :=
        if pa.2 = "" ∧ includesS imgSrc "8k_Y-oVxbuU.png" = true
        then trimS spanText else pa.2
      (phone, address)

/-- Head-anchored match of the category regex `/Page\s*·\s*/` (part_001 lines
137 and 147): literal `Page`, greedy whitespace, the middle-dot character,
greedy whitespace; yields the matched length. -/
def catPatLenAt (cs : List Char) : Option Nat :=
  if startsL "Page".data cs then
    let rest := cs.drop 4
    let w1 := (rest.takeWhile Char.isWhitespace).length
    match rest.drop w1 with
    | c :: r2 =>
      if c == '·' then
        some (4 + w1 + 1 + (r2.takeWhile Char.isWhitespace).length)
      else none
    | [] => none
  else none

/-- `text.replace(/Page\s*·\s*/, '')`: delete the first (leftmost) match of
the category pattern, leave the rest untouched. -/
def replaceCatPat : List Char → List Char
  | [] => []
  | c :: cs =>
    match catPatLenAt (c :: cs) with
    | some n => (c :: cs).drop n
    | none => c :: replaceCatPat cs

/-- `parentText.replace(/Page\s*·\s*/, '').trim()` (part_001 lines 137,
147). -/
def stripCat (t : String) : String :=
  trimS (String.mk (replaceCatPat t.data))

/-- The Facebook page as queried by `scrapeFacebookProfile`: navigation
outcome, the body text and recaptcha-iframe count read by the captcha guard
(part_001 lines 43-50), and the element data each extraction step queries.
`pageNameText`, `likesText`, `followersText` are `none` when the respective
locator has `count() = 0`.  `catMethod1`/`catMethod2` describe the two
category lookups (part_001 lines 130-150): outer `none` when the span locator
is empty, inner `Option` for the parent element's text. -/
structure FBPage where
  gotoError : Option String := none
  bodyText : String := ""
  recaptchaCount : Nat := 0
  pageNameText : Option String := none
  likesText : Option String := none
  followersText : Option String := none
  spans : List String := []
  contactDivs : List FBDiv := []
  catMethod1 : Option (Option String) := none
  catMethod2 : Option (Option String) := none

/-- The captcha guard condition (part_001 lines 46-50): body text contains
`unusual traffic` or `not a robot`, or a `recaptcha` iframe is present. -/
def fbCaptcha (pg : FBPage) : Bool :=
  includesS pg.bodyText "unusual traffic" ||
    includesS pg.bodyText "not a robot" ||
    decide (0 < pg.recaptchaCount)

/-- One extraction attempt of `scrapeFacebookProfile` (part_001 lines 65-165):
collect the eight fields, return a profile exactly when at least one field is
truthy. -/
def fbPass (pg : FBPage) : Option FBProfile :=
  let pageName := pg.pageNameText.getD ""
  let pageLikes := pg.likesText.getD ""
  let pageFollowers := pg.followersText.getD ""
  let ew := pg.spans.foldl fbSpanStep ("", "")
  let pa := pg.contactDivs.foldl fbDivStep ("", "")
  let category :=
    match pg.catMethod1 with
    | some (some t) => stripCat t
    | some none => ""
    | none =>
      match pg.catMethod2 with
      | some (some t) => stripCat t
      | _ => ""
  if pageName ≠ "" ∨ pageLikes ≠ "" ∨ pageFollowers ≠ "" ∨ pa.1 ≠ "" ∨
      ew.1 ≠ "" ∨ pa.2 ≠ "" ∨ ew.2 ≠ "" ∨ category ≠ "" then
    some ⟨pageName, pageLikes, pageFollowers, pa.1, ew.1, pa.2, ew.2, category⟩
  else none

/-- The retry loop of `scrapeFacebookProfile` (part_001 lines 59-173), fuel =
`maxRetries - retries`: a successful attempt breaks before the wait; a failed
attempt always waits 1000 ms (line 171) before `retries++`.  Yields the found
profile (if any), the number of attempts, and the wait durations. -/
def fbLoopAux (pg : FBPage) : Nat → Option FBProfile × Nat × List Nat
  | 0 => (none, 0, [])
  | n + 1 =>
    match fbPass pg with
    | some info => (some info, 1, [])
    | none =>
      let rest := fbLoopAux pg n
      (rest.1, rest.2.1 + 1, 1000 :: rest.2.2)

mutual

/-- Whitespace-run split `url.split(/\s+/)` (token builder: currently inside a
token). -/
def splitWsTok : List Char → List Char → List String
  | [], acc => [String.mk acc.reverse]
  | c :: cs, acc =>
    if c.isWhitespace then String.mk acc.reverse :: splitWsSep cs
    else splitWsTok cs (c :: acc)

/-- Whitespace-run split (separator builder: consuming a whitespace run). -/
def splitWsSep : List Char → List String
  | [] => [""]
  | c :: cs => if c.isWhitespace then splitWsSep cs else splitWsTok cs [c]

end

/-- `url.split(/\s+/)` as in part_001 line 28. -/
def splitWs (s : String) : List String :=
  splitWsTok s.data []

/-- URL normalization of `scrapeFacebookProfile` (part_001 lines 22-28): trim,
default the scheme to `https://`, then
`url.split(/\s+/).slice(0, 10).join(" ")`. -/
def fbNormalize (facebookUrl : String) : String :=
  let url := trimS facebookUrl
  let url := if hasHttpScheme url then url else "https://" ++ url
  " ".intercalate ((splitWs url).take 10)

/-- `const config = { headless: true, timeout: 30000, maxRetries: 20,
...options }` (part_001 lines 14-19). -/
def fbMkConfig (o : SLOptions) : SLConfig :=
  { headless := o.headless.getD true
    timeout := o.timeout.getD 30000
    maxRetries := o.maxRetries.getD 20
    delayMs := o.delayMs }

/-- The value returned by `scrapeFacebookProfile`: either the profile record,
or the `{ error, url }` record (captcha guard at part_001 lines 52-55, outer
`catch` at lines 191-196). -/
inductive FBOutput where
  | profile (p : FBProfile)
  | err (error : String) (url : String)
deriving DecidableEq

/-- One observed invocation of `scrapeFacebookProfile`: returned value, number
of extraction attempts, wait durations. -/
structure FBRun where
  output : FBOutput
  passCount : Nat
  waits : List Nat
deriving DecidableEq

/-- `scrapeFacebookProfile(facebookUrl, options)` (part_001 lines 12-200).
The captcha guard runs once, after navigation and before the first extraction
attempt; when it fires the function returns `{ error: 'captcha', url }` with
zero attempts. -/
def scrapeFacebookProfile (facebookUrl : String) (options : SLOptions)
    (pg : FBPage) : FBRun :=
  let config := fbMkConfig options
  let url := fbNormalize facebookUrl
  match pg.gotoError with
  | some message => ⟨.err message url, 0, []⟩
  | none =>
    if fbCaptcha pg then ⟨.err "captcha" url, 0, []⟩
    else
      let t := fbLoopAux pg config.maxRetries
      ⟨.profile (t.1.getD emptyFBProfile), t.2.1, t.2.2⟩

/-- Hexadecimal digit for percent-encoding (uppercase, as
`encodeURIComponent` produces). -/
def hexDigit (n : Nat) : Char :=
  if n < 10 then Char.ofNat (48 + n) else Char.ofNat (55 + n)

/-- Percent-encoding of one byte. -/
def pctByte (b : Nat) : String :=
  String.mk ['%', hexDigit (b / 16), hexDigit (b % 16)]

/-- Characters `encodeURIComponent` leaves unescaped: alphanumerics and
`- _ . ! ~ * ' ( )` (the apostrophe is compared by code point 39). -/
def isUnreservedC (c : Char) : Bool :=
  c.isAlpha || c.isDigit || c == '-' || c == '_' || c == '.' || c == '!' ||
    c == '~' || c == '*' || c == '(' || c == ')' || c.toNat == 39

/-- JS `encodeURIComponent`: unreserved characters pass through, everything
else is percent-encoded per UTF-8 byte. -/
def encodeURIComponent (s : String) : String :=
  s.data.foldl
    (fun acc c =>
      if isUnreservedC c then acc ++ String.singleton c
      else
        acc ++ String.join
          (((String.singleton c).toUTF8.toList).map fun b => pctByte b.toNat))
    ""

/-- The query URL built by `scrapeLocalServices` (second document of
`social_link_extractor.js`, lines 236-241): the prolist URL with the encoded
query, plus `&lci=20*(page-1)` for pages past the first. -/
def lsUrl (query : String) (pageNum : Nat) : String :=
  let e := encodeURIComponent query
  let base :=
    "https://www.google.com/localservices/prolist?g2lbs=AOHF13l1nKXJyeo2Y1vrUsqbzm7nMGGqt9wU47bg_QV2aChhU80cGr1gmgxzmXE3Ica0abC84lU7&ssta=1&q="
      ++ e ++ "&oq=" ++ e ++ "&src=2&serdesk=1"
  if 1 < pageNum then base ++ "&lci=" ++ toString (20 * (pageNum - 1))
  else base

/-- One listing pushed by the in-browser evaluate of `scrapeLocalServices`
(lines 319-329): the nine keys of each result object. -/
structure LSItem where
  name : String
  phone : String
  category : String
  address : String
  website : String
  reviews : String
  rating : String
  page : Nat
  keyword : String
deriving DecidableEq

/-- The value of the in-browser evaluate (lines 269-342): the listings and the
total count. -/
structure LSData where
  data : List LSItem
  total : Nat
deriving DecidableEq

/-- The error record of `scrapeLocalServices`: the captcha branch builds
`{ error: 'captcha' }` with no `url` key (line 252), modelled by
`url = none`. -/
structure LSErrorRecord where
  error : String
  url : Option String
deriving DecidableEq

/-- The resolved value of `scrapeLocalServices`: the scraped results or an
error record. -/
inductive LSOutput where
  | results (d : LSData)
  | err (e : LSErrorRecord)
deriving DecidableEq

/-- The Google local-services page as observed by `scrapeLocalServices`:
navigation outcome, the body text and recaptcha-iframe presence read by the
captcha detection (lines 245-248), and the data the in-browser evaluate
callback (lines 269-342) would return for the fully scrolled page. -/
structure LSPage where
  gotoError : Option String := none
  bodyText : String := ""
  recaptchaIframe : Bool := false
  scraped : LSData := ⟨[], 0⟩

/-- The captcha detection of `scrapeLocalServices` (lines 245-248). -/
def lsCaptcha (pg : LSPage) : Bool :=
  includesS pg.bodyText "unusual traffic" ||
    includesS pg.bodyText "not a robot" || pg.recaptchaIframe

/-- `scrapeLocalServices(query, page)` (lines 231-346).  There is no
`try`/`catch`: a `page.goto` rejection propagates to the caller, modelled as
`Except.error`.  On captcha the function returns `{ error: 'captcha' }` (no
`url` key) without scraping; otherwise it scrolls and runs the evaluate once.
The `Nat` counts how many times the scrape evaluate ran. -/
def scrapeLocalServices (query : String) (pageNum : Nat) (pg : LSPage) :
    Except String (LSOutput × Nat) :=
  let _url := lsUrl query pageNum
  match pg.gotoError with
  | some message => .error message
  | none =>
    if lsCaptcha pg then .ok (.err ⟨"captcha", none⟩, 0)
    else .ok (.results pg.scraped, 1)

/-- A page with nothing on it (navigation succeeded, every query empty). -/
def pgEmpty : Page := {}

/-- A result record with every field resolved. -/
def rAllResolved : SocialResult :=
  ⟨"fb", "ig", "tw", "yt", "li", "ct"⟩

/-- A page whose header holds one facebook anchor. -/
def pgHdrFb : Page :=
  { header := some [⟨some "https://facebook.com/acme", "Facebook"⟩] }

/-- A page whose header holds a facebook anchor while an instagram anchor sits
in the page body, outside header and footer. -/
def pgC4 : Page :=
  { header := some [⟨some "https://facebook.com/acme", "Facebook"⟩]
    allAnchors := [⟨some "https://facebook.com/acme", "Facebook"⟩,
      ⟨some "https://instagram.com/acme", "Instagram"⟩] }

/-- A page whose header query rejects on every pass while its raw markup
contains an instagram URL. -/
def pgFaulty : Page :=
  { failHeaderQuery := true
    html := "see https://instagram.com/acme here" }

/-- The same page with the header query healthy. -/
def pgFaultyOff : Page :=
  { pgFaulty with failHeaderQuery := false }

/-- A page whose only signal is a raw-text URL mention in the serialized
markup: no anchors, no structured data, no link relations, no meta tags. -/
def pgC8 : Page :=
  { html := "<html><body><p>Follow https://instagram.com/acme for updates</p></body></html>" }

/-- A page whose markup mentions `instagram.com/acme` as bare raw text,
without a scheme or protocol slashes. -/
def pgC8bare : Page :=
  { html := "<html><body><p>find us at instagram.com/acme</p></body></html>" }

/-- A page with content but zero matching signals: one non-social anchor and
markup without protocol-relative URLs. -/
def pgNoSignal : Page :=
  { allAnchors := [⟨some "https://example.com/about", "About"⟩]
    html := "welcome to example dot com" }

/-- A Facebook page whose body text trips the bot-detection guard. -/
def fbCaptchaPage : FBPage :=
  { bodyText := "Please confirm you are not a robot to continue" }

/-- A local-services page whose body text trips the captcha detection. -/
def lsCaptchaPage : LSPage :=
  { bodyText := "Our systems have detected unusual traffic from your network" }

/-- A stepper that never changes a non-empty field keeps every non-empty field
across a whole fold. -/
theorem foldl_keep {α : Type} (step : SocialResult → α → SocialResult)
    (hstep : ∀ r a F, getF r F ≠ "" → getF (step r a) F = getF r F)
    (xs : List α) : ∀ (r : SocialResult) (F : SField), getF r F ≠ "" →
    getF (xs.foldl step r) F = getF r F := by
  induction xs with
  | nil => intro r F _; rfl
  | cons a as ih =>
    intro r F h
    have h1 := hstep r a F h
    have h2 : getF (step r a) F ≠ "" := by rw [h1]; exact h
    calc getF ((a :: as).foldl step r) F
        = getF (as.foldl step (step r a)) F := rfl
      _ = getF (step r a) F := ih (step r a) F h2
      _ = getF r F := h1

/-- A stepper that fixes a given state fixes it across a whole fold. -/
theorem foldl_keep_fix {α : Type} (step : SocialResult → α → SocialResult)
    (r : SocialResult) (hstep : ∀ a, step r a = r) :
    ∀ xs : List α, xs.foldl step r = r := by
  intro xs
  induction xs with
  | nil => rfl
  | cons a as ih =>
    calc (a :: as).foldl step r = as.foldl step (step r a) := rfl
      _ = as.foldl step r := by rw [hstep a]
      _ = r := ih

/-- Writing a field other than `F` leaves `F` unchanged. -/
theorem getF_setF_ne (r : SocialResult) (p F : SField) (v : String)
    (h : F ≠ p) : getF (setF r p v) F = getF r F := by
  cases p <;> cases F <;> first | rfl | exact absurd rfl h

/-- The guarded platform updates never change a non-empty field. -/
theorem setPlatforms_keep (lower value : String) (r : SocialResult)
    (F : SField) (h : getF r F ≠ "") :
    getF (setPlatforms lower value r) F = getF r F := by
  refine foldl_keep _ ?_ socialPlatforms r F h
  intro r1 p F1 h1
  by_cases hc : getF r1 p = "" ∧ includesS lower (platName p ++ ".com") = true
  · rw [if_pos hc]
    exact getF_setF_ne r1 p F1 value fun he => h1 (he ▸ hc.1)
  · rw [if_neg hc]

/-- The guarded platform updates fix a complete record. -/
theorem setPlatforms_fix (lower value : String) (r : SocialResult)
    (h : Complete r) : setPlatforms lower value r = r :=
  foldl_keep_fix _ r (fun p => if_neg fun hc => h p hc.1) socialPlatforms

/-- The contact update never changes a non-empty field. -/
theorem contactStep_keep (r1 : SocialResult) (href : String) (a : Anchor)
    (F : SField) (h : getF r1 F ≠ "") :
    getF (contactStep r1 href a) F = getF r1 F := by
  unfold contactStep
  by_cases hc : getF r1 SField.contact = "" ∧
      (includesS (toLowerS href) "/contact" = true ∨
        includesS (toLowerS a.text) "contact" = true)
  · rw [if_pos hc]
    exact getF_setF_ne r1 SField.contact F href fun he => h (he ▸ hc.1)
  · rw [if_neg hc]

/-- One anchor never changes a non-empty field. -/
theorem anchorStep_keep (r : SocialResult) (a : Anchor) (F : SField)
    (h : getF r F ≠ "") : getF (anchorStep r a) F = getF r F := by
  cases ha : a.href with
  | none => simp only [anchorStep, ha]
  | some href =>
    simp only [anchorStep, ha]
    by_cases he : href = ""
    · rw [if_pos he]
    · rw [if_neg he]
      have h1 := setPlatforms_keep (toLowerS href) href r F h
      have h2 : getF (setPlatforms (toLowerS href) href r) F ≠ "" := by
        rw [h1]; exact h
      rw [contactStep_keep _ href a F h2, h1]

/-- One anchor fixes a complete record. -/
theorem anchorStep_fix (r : SocialResult) (h : Complete r) (a : Anchor) :
    anchorStep r a = r := by
  cases ha : a.href with
  | none => simp only [anchorStep, ha]
  | some href =>
    simp only [anchorStep, ha]
    by_cases he : href = ""
    · rw [if_pos he]
    · rw [if_neg he, setPlatforms_fix _ _ r h]
      exact if_neg fun hc => h SField.contact hc.1

/-- `extractLinksFrom` never changes a non-empty field. -/
theorem extractLinksFrom_keep (anchors : List Anchor) (r : SocialResult)
    (F : SField) (h : getF r F ≠ "") :
    getF (extractLinksFrom anchors r) F = getF r F := by
  unfold extractLinksFrom
  exact foldl_keep anchorStep anchorStep_keep anchors r F h

/-- `extractLinksFrom` fixes a complete record. -/
theorem extractLinksFrom_fix (anchors : List Anchor) (r : SocialResult)
    (h : Complete r) : extractLinksFrom anchors r = r := by
  unfold extractLinksFrom
  exact foldl_keep_fix anchorStep r (anchorStep_fix r h) anchors

/-- One `sameAs` entry never changes a non-empty field. -/
theorem applyLdLink_keep (r : SocialResult) (l : Json) (F : SField)
    (h : getF r F ≠ "") : getF (applyLdLink r l).1 F = getF r F := by
  cases l with
  | str s => simp only [applyLdLink]; exact setPlatforms_keep (toLowerS s) s r F h
  | null => simp only [applyLdLink]
  | bool b => simp only [applyLdLink]
  | num n => simp only [applyLdLink]
  | arr xs => simp only [applyLdLink]
  | obj fs => simp only [applyLdLink]

/-- The `sameAs` loop never changes a non-empty field. -/
theorem applyLdLinks_keep (ls : List Json) : ∀ (r : SocialResult) (F : SField),
    getF r F ≠ "" → getF (applyLdLinks r ls) F = getF r F := by
  induction ls with
  | nil => intro r F _; rfl
  | cons l ls ih =>
    intro r F h
    have h1 := applyLdLink_keep r l F h
    unfold applyLdLinks
    cases hl : applyLdLink r l with
    | mk r1 b =>
      have h1' : getF r1 F = getF r F := by rw [← h1, hl]
      cases b with
      | true => exact h1'
      | false =>
        have h2 : getF r1 F ≠ "" := by rw [h1']; exact h
        rw [ih r1 F h2, h1']

/-- One `ld+json` script never changes a non-empty field. -/
theorem applyLdScript_keep (r : SocialResult) (s : Except Unit Json)
    (F : SField) (h : getF r F ≠ "") :
    getF (applyLdScript r s) F = getF r F := by
  cases s with
  | error e => simp only [applyLdScript]
  | ok j =>
    simp only [applyLdScript]
    cases hp : jsProp j "sameAs" with
    | error e => simp only []
    | ok s0 =>
      simp only []
      cases hs : ldSameAs j s0 with
      | none => simp only []
      | some v =>
        simp only []
        by_cases ht : jsTruthy v = true
        · rw [if_pos ht]; exact applyLdLinks_keep (ldLinkList v) r F h
        · rw [if_neg ht]

/-- One `sameAs` entry fixes a complete record (state component). -/
theorem applyLdLink_fix (r : SocialResult) (h : Complete r) (l : Json) :
    (applyLdLink r l).1 = r := by
  cases l with
  | str s => simp only [applyLdLink]; exact setPlatforms_fix (toLowerS s) s r h
  | null => simp only [applyLdLink]
  | bool b => simp only [applyLdLink]
  | num n => simp only [applyLdLink]
  | arr xs => simp only [applyLdLink]
  | obj fs => simp only [applyLdLink]

/-- The `sameAs` loop fixes a complete record. -/
theorem applyLdLinks_fix (r : SocialResult) (h : Complete r) :
    ∀ ls : List Json, applyLdLinks r ls = r := by
  intro ls
  induction ls with
  | nil => rfl
  | cons l ls ih =>
    unfold applyLdLinks
    cases hl : applyLdLink r l with
    | mk r1 b =>
      have h1 : r1 = r := by
        have := applyLdLink_fix r h l
        rw [hl] at this; exact this
      cases b with
      | true => exact h1
      | false => rw [h1]; exact ih

/-- One `ld+json` script fixes a complete record. -/
theorem applyLdScript_fix (r : SocialResult) (h : Complete r)
    (s : Except Unit Json) : applyLdScript r s = r := by
  cases s with
  | error e => simp only [applyLdScript]
  | ok j =>
    simp only [applyLdScript]
    cases hp : jsProp j "sameAs" with
    | error e => simp only []
    | ok s0 =>
      simp only []
      cases hs : ldSameAs j s0 with
      | none => simp only []
      | some v =>
        simp only []
        by_cases ht : jsTruthy v = true
        · rw [if_pos ht]; exact applyLdLinks_fix r h (ldLinkList v)
        · rw [if_neg ht]

/-- One `rel="me"` link never changes a non-empty field. -/
theorem relMeStep_keep (r : SocialResult) (l : Option String) (F : SField)
    (h : getF r F ≠ "") : getF (relMeStep r l) F = getF r F := by
  cases l with
  | none => simp only [relMeStep]
  | some href =>
    simp only [relMeStep]
    by_cases he : href = ""
    · rw [if_pos he]
    · rw [if_neg he]; exact setPlatforms_keep (toLowerS href) href r F h

/-- One `rel="me"` link fixes a complete record. -/
theorem relMeStep_fix (r : SocialResult) (h : Complete r)
    (l : Option String) : relMeStep r l = r := by
  cases l with
  | none => simp only [relMeStep]
  | some href =>
    simp only [relMeStep]
    by_cases he : href = ""
    · rw [if_pos he]
    · rw [if_neg he]; exact setPlatforms_fix (toLowerS href) href r h

/-- One `og:see_also` entry never changes a non-empty field. -/
theorem ogStep_keep (r : SocialResult) (l : String) (F : SField)
    (h : getF r F ≠ "") : getF (ogStep r l) F = getF r F :=
  setPlatforms_keep (toLowerS l) (trimS l) r F h

/-- One strategy-6 platform step never changes a non-empty field. -/
theorem regexStep_keep (html : String) (r : SocialResult) (p : SField)
    (F : SField) (h : getF r F ≠ "") :
    getF (regexStep html r p) F = getF r F := by
  unfold regexStep
  by_cases hp : getF r p = ""
  · rw [if_pos hp]
    cases execPlatformRegex (platName p) html with
    | none => rfl
    | some m => exact getF_setF_ne r p F m fun he => h (he ▸ hp)
  · rw [if_neg hp]

/-- Strategy 1 never changes a non-empty field. -/
theorem stratHeaderFooter_keep (pg : Page) (r : SocialResult) (F : SField)
    (h : getF r F ≠ "") : getF (stratHeaderFooter pg r) F = getF r F := by
  unfold stratHeaderFooter
  cases pg.footer with
  | none =>
    cases pg.header with
    | none => rfl
    | some hs => exact extractLinksFrom_keep hs r F h
  | some anchors =>
    cases pg.header with
    | none => exact extractLinksFrom_keep anchors r F h
    | some hs =>
      have h1 := extractLinksFrom_keep hs r F h
      have h2 : getF (extractLinksFrom hs r) F ≠ "" := by rw [h1]; exact h
      rw [extractLinksFrom_keep anchors _ F h2, h1]

/-- Strategy 1 fixes a complete record. -/
theorem stratHeaderFooter_fix (pg : Page) (r : SocialResult)
    (h : Complete r) : stratHeaderFooter pg r = r := by
  cases hf : pg.footer with
  | none =>
    cases hh : pg.header with
    | none => simp only [stratHeaderFooter, hf, hh]
    | some hs =>
      simp only [stratHeaderFooter, hf, hh]
      exact extractLinksFrom_fix hs r h
  | some anchors =>
    cases hh : pg.header with
    | none =>
      simp only [stratHeaderFooter, hf, hh]
      exact extractLinksFrom_fix anchors r h
    | some hs =>
      simp only [stratHeaderFooter, hf, hh]
      rw [extractLinksFrom_fix hs r h, extractLinksFrom_fix anchors r h]

/-- Strategy 2 never changes a non-empty field. -/
theorem stratJsonLd_keep (pg : Page) (r : SocialResult) (F : SField)
    (h : getF r F ≠ "") : getF (stratJsonLd pg r) F = getF r F := by
  unfold stratJsonLd
  exact foldl_keep applyLdScript (fun r s F h => applyLdScript_keep r s F h)
    pg.jsonLdScripts r F h

/-- Strategy 2 fixes a complete record. -/
theorem stratJsonLd_fix (pg : Page) (r : SocialResult) (h : Complete r) :
    stratJsonLd pg r = r := by
  unfold stratJsonLd
  exact foldl_keep_fix applyLdScript r (fun s => applyLdScript_fix r h s)
    pg.jsonLdScripts

/-- Strategy 3 never changes a non-empty field. -/
theorem stratRelMe_keep (pg : Page) (r : SocialResult) (F : SField)
    (h : getF r F ≠ "") : getF (stratRelMe pg r) F = getF r F := by
  unfold stratRelMe
  exact foldl_keep relMeStep (fun r l F h => relMeStep_keep r l F h)
    pg.relMeLinks r F h

/-- Strategy 3 fixes a complete record. -/
theorem stratRelMe_fix (pg : Page) (r : SocialResult) (h : Complete r) :
    stratRelMe pg r = r := by
  unfold stratRelMe
  exact foldl_keep_fix relMeStep r (fun l => relMeStep_fix r h l) pg.relMeLinks

/-- The twitter-meta read never changes a non-empty field. -/
theorem stratTwitterMeta_keep (pg : Page) (r : SocialResult) (F : SField)
    (h : getF r F ≠ "") : getF (stratTwitterMeta pg r) F = getF r F := by
  cases hm : pg.twitterSiteMeta with
  | none => simp only [stratTwitterMeta, hm]
  | some contentOpt =>
    simp only [stratTwitterMeta, hm]
    by_cases ht : getF r SField.twitter = ""
    · rw [if_pos ht]
      cases contentOpt with
      | none => rfl
      | some content =>
        show getF (if content = "" then r else setF r SField.twitter (trimS content)) F
          = getF r F
        by_cases hc : content = ""
        · rw [if_pos hc]
        · rw [if_neg hc]
          exact getF_setF_ne r SField.twitter F (trimS content)
            fun he => h (he ▸ ht)
    · rw [if_neg ht]

/-- The twitter-meta read fixes a complete record. -/
theorem stratTwitterMeta_fix (pg : Page) (r : SocialResult) (h : Complete r) :
    stratTwitterMeta pg r = r := by
  cases hm : pg.twitterSiteMeta with
  | none => simp only [stratTwitterMeta, hm]
  | some contentOpt =>
    simp only [stratTwitterMeta, hm]
    rw [if_neg (h SField.twitter)]

/-- The `og:see_also` read never changes a non-empty field. -/
theorem stratOgSeeAlso_keep (pg : Page) (r : SocialResult) (F : SField)
    (h : getF r F ≠ "") : getF (stratOgSeeAlso pg r) F = getF r F := by
  cases hm : pg.ogSeeAlso with
  | none => simp only [stratOgSeeAlso, hm]
  | some contentOpt =>
    simp only [stratOgSeeAlso, hm]
    cases contentOpt with
    | none => rfl
    | some content =>
      show getF (if content = "" then r
        else List.foldl ogStep r (splitComma content)) F = getF r F
      by_cases hc : content = ""
      · rw [if_pos hc]
      · rw [if_neg hc]
        exact foldl_keep ogStep (fun r l F h => ogStep_keep r l F h)
          (splitComma content) r F h

/-- The `og:see_also` read fixes a complete record. -/
theorem stratOgSeeAlso_fix (pg : Page) (r : SocialResult) (h : Complete r) :
    stratOgSeeAlso pg r = r := by
  cases hm : pg.ogSeeAlso with
  | none => simp only [stratOgSeeAlso, hm]
  | some contentOpt =>
    simp only [stratOgSeeAlso, hm]
    cases contentOpt with
    | none => rfl
    | some content =>
      show (if content = "" then r
        else List.foldl ogStep r (splitComma content)) = r
      by_cases hc : content = ""
      · rw [if_pos hc]
      · rw [if_neg hc]
        exact foldl_keep_fix ogStep r
          (fun l => setPlatforms_fix (toLowerS l) (trimS l) r h) (splitComma content)

/-- Strategy 5 never changes a non-empty field. -/
theorem stratFullScan_keep (pg : Page) (r : SocialResult) (F : SField)
    (h : getF r F ≠ "") : getF (stratFullScan pg r) F = getF r F :=
  extractLinksFrom_keep pg.allAnchors r F h

/-- Strategy 5 fixes a complete record. -/
theorem stratFullScan_fix (pg : Page) (r : SocialResult) (h : Complete r) :
    stratFullScan pg r = r :=
  extractLinksFrom_fix pg.allAnchors r h

/-- Strategy 6 never changes a non-empty field. -/
theorem stratRegex_keep (pg : Page) (r : SocialResult) (F : SField)
    (h : getF r F ≠ "") : getF (stratRegex pg r) F = getF r F := by
  unfold stratRegex
  exact foldl_keep (regexStep pg.html)
    (fun r p F h => regexStep_keep pg.html r p F h) socialPlatforms r F h

/-- Strategy 6 fixes a complete record. -/
theorem stratRegex_fix (pg : Page) (r : SocialResult) (h : Complete r) :
    stratRegex pg r = r := by
  unfold stratRegex
  refine foldl_keep_fix (regexStep pg.html) r ?_ socialPlatforms
  intro p
  unfold regexStep
  rw [if_neg (h p)]

/-- A complete record satisfies the code's looser completeness predicate. -/
theorem hasSocialLinks_of_complete (r : SocialResult) (h : Complete r) :
    hasSocialLinks r = true := by
  cases hb : r.contact == "" with
  | true => exact absurd (eq_of_beq hb) (h SField.contact)
  | false => simp [hasSocialLinks, hb]

/-- The four unconditional strategies fix a complete record. -/
theorem after4_fix (pg : Page) (r : SocialResult) (h : Complete r) :
    after4 pg r = r := by
  unfold after4
  rw [stratHeaderFooter_fix pg r h, stratJsonLd_fix pg r h,
    stratRelMe_fix pg r h, stratTwitterMeta_fix pg r h,
    stratOgSeeAlso_fix pg r h]

/-- A whole pass fixes a complete record. -/
theorem runPass_fix (pg : Page) (r : SocialResult) (h : Complete r) :
    (runPass pg r).1 = r := by
  unfold runPass
  by_cases hf : pg.failHeaderQuery = true
  · rw [if_pos hf]
  · rw [if_neg hf]
    show afterAll pg r = r
    have h4 := after4_fix pg r h
    have hh : hasSocialLinks (after4 pg r) = true := by
      rw [h4]; exact hasSocialLinks_of_complete r h
    have h5 : after5 pg r = r := by
      unfold after5; rw [if_pos hh]; exact h4
    have hh5 : hasSocialLinks (after5 pg r) = true := by
      rw [h5]; exact hasSocialLinks_of_complete r h
    unfold afterAll
    rw [if_pos hh5]; exact h5

/-- When the loop starts from a record the pass already has links for, it
exits immediately: zero passes, no waits. -/
theorem loopAux_of_has (pg : Page) (n : Nat) (r : SocialResult)
    (h : hasSocialLinks r = true) : loopAux pg n r = (r, 0, []) := by
  cases n with
  | zero => rfl
  | succ n => simp [loopAux, h]

/-- The loop never runs more passes than its fuel. -/
theorem loopAux_count_le (pg : Page) : ∀ (n : Nat) (r : SocialResult),
    (loopAux pg n r).2.1 ≤ n := by
  intro n
  induction n with
  | zero => intro r; exact Nat.le_refl 0
  | succ n ih =>
    intro r
    by_cases h : hasSocialLinks r = true
    · rw [loopAux_of_has pg (n + 1) r h]
      exact Nat.zero_le (n + 1)
    · have hb : hasSocialLinks r = false := by
        cases hx : hasSocialLinks r with
        | true => exact absurd hx h
        | false => rfl
      simp only [loopAux, hb]
      exact Nat.succ_le_succ (ih _)

/-- When the final record still has no links, the loop exhausted all its
fuel. -/
theorem loopAux_count_exhaust (pg : Page) : ∀ (n : Nat) (r : SocialResult),
    hasSocialLinks (loopAux pg n r).1 = false → (loopAux pg n r).2.1 = n := by
  intro n
  induction n with
  | zero => intro r _; rfl
  | succ n ih =>
    intro r hfin
    by_cases h : hasSocialLinks r = true
    · rw [loopAux_of_has pg (n + 1) r h] at hfin
      exact absurd h (by rw [hfin]; exact fun hx => Bool.noConfusion hx)
    · have hb : hasSocialLinks r = false := by
        cases hx : hasSocialLinks r with
        | true => exact absurd hx h
        | false => rfl
      simp only [loopAux, hb, Bool.false_eq_true, if_false] at hfin ⊢
      rw [ih _ hfin]

/-- A loop started from a complete record exits immediately. -/
theorem loopAux_of_complete (pg : Page) (n : Nat) (r : SocialResult)
    (h : Complete r) : loopAux pg n r = (r, 0, []) :=
  loopAux_of_has pg n r (hasSocialLinks_of_complete r h)

/-- The fresh record has no links. -/
theorem hasSocialLinks_init : hasSocialLinks initResult = false := rfl

/-- With a permanently failing header query, every pass throws: the loop still
runs all its passes, the record never changes, and no waits happen. -/
theorem loopAux_fault (pg : Page) (hf : pg.failHeaderQuery = true) :
    ∀ n : Nat, loopAux pg n initResult = (initResult, n, []) := by
  intro n
  induction n with
  | zero => rfl
  | succ n ih =>
    simp only [loopAux, hasSocialLinks_init, Bool.false_eq_true, if_false,
      runPass, hf, if_true, ih]
    simp

/-- When each pass leaves the fresh record unchanged, so does the whole
loop. -/
theorem loopAux_fix_init (pg : Page)
    (hrp : runPass pg initResult = (initResult, false)) :
    ∀ n : Nat, (loopAux pg n initResult).1 = initResult := by
  intro n
  induction n with
  | zero => rfl
  | succ n ih =>
    simp only [loopAux, hasSocialLinks_init, Bool.false_eq_true, if_false, hrp]
    exact ih

/-- Every wait the loop performs lasts 1000 ms. -/
theorem loopAux_waits (pg : Page) : ∀ (n : Nat) (r : SocialResult),
    ((loopAux pg n r).2.2).all (fun w => w == 1000) = true := by
  intro n
  induction n with
  | zero => intro r; rfl
  | succ n ih =>
    intro r
    by_cases h : hasSocialLinks r = true
    · rw [loopAux_of_has pg (n + 1) r h]
      rfl
    · have hb : hasSocialLinks r = false := by
        cases hx : hasSocialLinks r with
        | true => exact absurd hx h
        | false => rfl
      simp only [loopAux, hb, Bool.false_eq_true, if_false]
      cases hc : ((runPass pg r).2 || hasSocialLinks (runPass pg r).1 ||
          (n == 0)) with
      | true =>
        simp only [hc]
        simp only [if_true]
        exact ih _
      | false =>
        simp only [hc, Bool.false_eq_true, if_false, List.all_cons]
        rw [ih _]
        rfl

/-- Every wait of the Facebook retry loop lasts 1000 ms. -/
theorem fbLoopAux_waits (pg : FBPage) : ∀ n : Nat,
    ((fbLoopAux pg n).2.2).all (fun w => w == 1000) = true := by
  intro n
  induction n with
  | zero => rfl
  | succ n ih =>
    simp only [fbLoopAux]
    cases fbPass pg with
    | some info => rfl
    | none =>
      simp only [List.all_cons]
      rw [ih]
      rfl

/-- When the first pass already finds a link, the loop stops after exactly one
pass with no wait. -/
theorem loopAux_first_pass (pg : Page) (m : Nat)
    (h : hasSocialLinks (runPass pg initResult).1 = true) :
    loopAux pg (m + 1) initResult = ((runPass pg initResult).1, 1, []) := by
  simp only [loopAux, hasSocialLinks_init, Bool.false_eq_true, if_false,
    loopAux_of_has pg m _ h, h]
  simp

/-- With one unit of fuel the loop runs exactly one pass and never waits. -/
theorem loopAux_one (pg : Page) :
    loopAux pg 1 initResult = ((runPass pg initResult).1, 1, []) := by
  simp [loopAux, hasSocialLinks_init]

/-- Claim C1, counterexample.  On a local-services page whose body text
contains an automated-traffic phrase, `scrapeLocalServices` returns
`{ error: 'captcha' }` with no `url` key at all (source line 252), so the
outcome does not carry the normalized target URL the claim promises. -/
theorem claim1_counterexample :
    scrapeLocalServices "electrician in chicago" 1 lsCaptchaPage =
      .ok (.err ⟨"captcha", none⟩, 0) ∧
    scrapeLocalServices "electrician in chicago" 1 lsCaptchaPage ≠
      .ok (.err ⟨"captcha", some (lsUrl "electrician in chicago" 1)⟩, 0) := by
  constructor
  · rfl
  · intro hx
    have h0 : scrapeLocalServices "electrician in chicago" 1 lsCaptchaPage =
        .ok (.err ⟨"captcha", none⟩, 0) := rfl
    rw [h0] at hx
    injection hx with h1
    injection h1 with h2 h3
    injection h2 with h4
    injection h4 with h5 h6
    exact Option.noConfusion h6

/-- Claim C1, amended: when the bot-detection guard fires, the invocation
terminates with zero pipeline passes and an outcome carrying
`error: 'captcha'`; the Facebook-profile variant also carries the normalized
target URL, while the local-services variant returns `{ error: 'captcha' }`
without the URL. -/
theorem claim1_captcha_guard :
    (∀ (fbUrl : String) (opts : SLOptions) (pg : FBPage),
      pg.gotoError = none → fbCaptcha pg = true →
      scrapeFacebookProfile fbUrl opts pg =
        ⟨.err "captcha" (fbNormalize fbUrl), 0, []⟩) ∧
    (∀ (q : String) (n : Nat) (pg : LSPage),
      pg.gotoError = none → lsCaptcha pg = true →
      scrapeLocalServices q n pg = .ok (.err ⟨"captcha", none⟩, 0)) := by
  constructor
  · intro fbUrl opts pg hg hc
    simp only [scrapeFacebookProfile, hg, hc, if_true]
  · intro q n pg hg hc
    simp only [scrapeLocalServices, hg, hc, if_true]

/-- Claim C1, witness: the guard theorem applied to a concrete bot-blocked
Facebook page. -/
theorem claim1_witness :
    fbCaptcha fbCaptchaPage = true ∧
    scrapeFacebookProfile "facebook.com/acme" ⟨none, none, none, none⟩
        fbCaptchaPage =
      ⟨.err "captcha" (fbNormalize "facebook.com/acme"), 0, []⟩ :=
  ⟨by decide, claim1_captcha_guard.1 "facebook.com/acme"
    ⟨none, none, none, none⟩ fbCaptchaPage rfl (by decide)⟩

/-- Claim C2: first-found-wins with idempotent re-entrancy.  Every strategy of
the pipeline leaves an already-resolved field untouched; a whole pass fixes a
complete record; and the retry loop run against a complete record exits
immediately without altering any field. -/
theorem claim2_first_found_wins :
    (∀ (pg : Page) (s : SocialResult → SocialResult), s ∈ strategyFns pg →
      ∀ (r : SocialResult) (F : SField), getF r F ≠ "" →
      getF (s r) F = getF r F) ∧
    (∀ (pg : Page) (r : SocialResult), Complete r → (runPass pg r).1 = r) ∧
    (∀ (pg : Page) (n : Nat) (r : SocialResult), Complete r →
      loopAux pg n r = (r, 0, [])) := by
  refine ⟨?_, runPass_fix, fun pg n r h => loopAux_of_complete pg n r h⟩
  intro pg s hs r F h
  simp only [strategyFns, List.mem_cons, List.not_mem_nil, or_false] at hs
  rcases hs with rfl | rfl | rfl | rfl | rfl | rfl | rfl
  · exact stratHeaderFooter_keep pg r F h
  · exact stratJsonLd_keep pg r F h
  · exact stratRelMe_keep pg r F h
  · exact stratTwitterMeta_keep pg r F h
  · exact stratOgSeeAlso_keep pg r F h
  · exact stratFullScan_keep pg r F h
  · exact stratRegex_keep pg r F h

/-- Claim C2, witness: a pass over a fully resolved record changes nothing. -/
theorem claim2_witness :
    Complete rAllResolved ∧ (runPass pgHdrFb rAllResolved).1 = rAllResolved :=
  ⟨fun F => by cases F <;> decide,
    claim2_first_found_wins.2.1 pgHdrFb rAllResolved
      (fun F => by cases F <;> decide)⟩

/-- Claim C3: retry bound.  For every configuration and page, the number of
pipeline passes never exceeds `maxRetries`; when at least one pass is allowed
and the first pass already satisfies the code's completeness predicate
(`hasSocialLinks`, true in particular whenever every field resolves), exactly
one pass runs; and on exhaustion without completeness the partial record is
returned as a normal, non-error result after exactly `maxRetries` passes. -/
theorem claim3_retry_bound :
    ∀ (url : String) (opts : SLOptions) (pg : Page),
      (extractSocialLinks url opts pg).passCount ≤ (mkConfig opts).maxRetries ∧
      (pg.gotoError = none → 1 ≤ (mkConfig opts).maxRetries →
        hasSocialLinks (runPass pg initResult).1 = true →
        (extractSocialLinks url opts pg).passCount = 1) ∧
      (pg.gotoError = none →
        hasSocialLinks (finalRecord pg (mkConfig opts).maxRetries) = false →
        (extractSocialLinks url opts pg).output =
            .record (finalRecord pg (mkConfig opts).maxRetries) ∧
          (extractSocialLinks url opts pg).passCount =
            (mkConfig opts).maxRetries) := by
  intro url opts pg
  cases hg : pg.gotoError with
  | some msg =>
    refine ⟨?_, ?_, ?_⟩
    · simp only [extractSocialLinks, hg]
      exact Nat.zero_le _
    · intro h _ _; exact Option.noConfusion h
    · intro h _; exact Option.noConfusion h
  | none =>
    refine ⟨?_, ?_, ?_⟩
    · simp only [extractSocialLinks, hg]
      exact loopAux_count_le pg _ _
    · intro _ h1 hfirst
      simp only [extractSocialLinks, hg]
      obtain ⟨m, hm⟩ : ∃ m, (mkConfig opts).maxRetries = m + 1 := by
        cases hN : (mkConfig opts).maxRetries with
        | zero => rw [hN] at h1; exact absurd h1 (by omega)
        | succ m => exact ⟨m, rfl⟩
      rw [hm, loopAux_first_pass pg m hfirst]
    · intro _ hfin
      simp only [extractSocialLinks, hg]
      exact ⟨rfl, loopAux_count_exhaust pg _ _ hfin⟩

/-- Claim C3, witness: a page resolved by the first pass runs exactly one
pass. -/
theorem claim3_witness :
    1 ≤ (mkConfig ⟨none, none, some 3, none⟩).maxRetries ∧
    hasSocialLinks (runPass pgHdrFb initResult).1 = true ∧
    (extractSocialLinks "example.com" ⟨none, none, some 3, none⟩
      pgHdrFb).passCount = 1 :=
  ⟨by decide, by decide,
    (claim3_retry_bound "example.com" ⟨none, none, some 3, none⟩ pgHdrFb).2.1
      rfl (by decide) (by decide)⟩

/-- Claim C4, counterexample.  The pass checks the code's completeness
predicate only before strategies 5 and 6, and that predicate is "at least one
field resolved", not "every field resolved": on a page whose header resolves
facebook while an instagram anchor sits in the page body, the body scan
(strategy 5) is skipped even though instagram is still unresolved — yet
strategy 5 would have resolved it. -/
theorem claim4_counterexample :
    (runPass pgC4 initResult).1.facebook = "https://facebook.com/acme" ∧
    (runPass pgC4 initResult).1.instagram = "" ∧
    (stratFullScan pgC4 (after4 pgC4 initResult)).instagram =
      "https://instagram.com/acme" :=
  ⟨rfl, rfl, rfl⟩

/-- Claim C4, amended: strategies 1-4 run unconditionally every pass (their
per-field guards make them no-ops on resolved fields); the completeness
predicate actually checked is `hasSocialLinks` ("at least one field
resolved"), and it is consulted only before strategy 5 and again before
strategy 6, skipping them once any field is resolved. -/
theorem claim4_early_stop :
    ∀ (pg : Page) (r : SocialResult), pg.failHeaderQuery = false →
      (hasSocialLinks (after4 pg r) = true → (runPass pg r).1 = after4 pg r) ∧
      (hasSocialLinks (after4 pg r) = false →
        (runPass pg r).1 =
          (if hasSocialLinks (stratFullScan pg (after4 pg r)) = true
            then stratFullScan pg (after4 pg r)
            else stratRegex pg (stratFullScan pg (after4 pg r)))) := by
  intro pg r hf
  constructor
  · intro hh
    simp only [runPass, hf, Bool.false_eq_true, if_false, afterAll, after5,
      hh, if_true]
  · intro hh
    simp only [runPass, hf, Bool.false_eq_true, if_false, afterAll, after5,
      hh, if_false]

/-- Claim C4, witness: on the header-resolved page, the pass stops after
strategy 4. -/
theorem claim4_witness :
    hasSocialLinks (after4 pgC4 initResult) = true ∧
    (runPass pgC4 initResult).1 = after4 pgC4 initResult :=
  ⟨by decide, (claim4_early_stop pgC4 initResult rfl).1 (by decide)⟩

/-- Claim C5, counterexample.  With `maxRetries = 0` the loop guard
`attempts < config.maxRetries` is false from the start: zero passes run, not
the one pass the claim promises — even on a page whose header would resolve a
field. -/
theorem claim5_counterexample :
    (extractSocialLinks "example.com" ⟨none, none, some 0, none⟩
      pgHdrFb).passCount = 0 ∧
    (extractSocialLinks "example.com" ⟨none, none, some 0, none⟩
      pgHdrFb).passCount ≠ 1 :=
  ⟨rfl, by decide⟩

/-- Claim C5, amended: `maxAttempts = 1` runs exactly one pass with no retry
and no inter-pass wait; `maxAttempts = 0` runs zero passes and returns the
untouched empty record. -/
theorem claim5_zero_one :
    ∀ (url : String) (opts : SLOptions) (pg : Page), pg.gotoError = none →
      (extractSocialLinks url { opts with maxRetries := some 1 }
          pg).passCount = 1 ∧
      (extractSocialLinks url { opts with maxRetries := some 1 } pg).waits =
        [] ∧
      (extractSocialLinks url { opts with maxRetries := some 0 }
          pg).passCount = 0 ∧
      (extractSocialLinks url { opts with maxRetries := some 0 } pg).output =
        .record initResult := by
  intro url opts pg hg
  have hmax1 : (mkConfig { opts with maxRetries := some 1 }).maxRetries = 1 :=
    rfl
  have hmax0 : (mkConfig { opts with maxRetries := some 0 }).maxRetries = 0 :=
    rfl
  have e1 : extractSocialLinks url { opts with maxRetries := some 1 } pg =
      ⟨.record (runPass pg initResult).1, 1, []⟩ := by
    simp only [extractSocialLinks, hg, hmax1, loopAux_one]
  have e0 : extractSocialLinks url { opts with maxRetries := some 0 } pg =
      ⟨.record initResult, 0, []⟩ := by
    simp only [extractSocialLinks, hg, hmax0]
    rfl
  refine ⟨?_, ?_, ?_, ?_⟩
  · rw [e1]
  · rw [e1]
  · rw [e0]
  · rw [e0]

/-- Claim C5, witness: the amended edge-case theorem at a concrete page. -/
theorem claim5_witness :
    pgEmpty.gotoError = none ∧
    (extractSocialLinks "example.com"
        { (⟨none, none, none, none⟩ : SLOptions) with maxRetries := some 1 }
        pgEmpty).passCount = 1 :=
  ⟨rfl,
    (claim5_zero_one "example.com" ⟨none, none, none, none⟩ pgEmpty rfl).1⟩

/-- Claim C6, counterexample.  When the header query of strategy 1 rejects,
the pass-level `catch` (source line 189) swallows the error but the remaining
strategies of that pass are skipped: on a one-attempt run whose markup holds
an instagram URL, the returned record is entirely empty, although the very
same page with a healthy header query resolves instagram in one pass. -/
theorem claim6_counterexample :
    (extractSocialLinks "example.com" ⟨none, none, some 1, none⟩
      pgFaulty).output = .record initResult ∧
    (runPass pgFaultyOff initResult).1.instagram =
      "https://instagram.com/acme" :=
  ⟨rfl, rfl⟩

/-- Claim C6, amended: a malformed structured-data block is contained
strategy-locally (the inner `catch` at source lines 114-116) and the pass
continues; any other strategy throw is caught at the pass level — it is
logged, aborts the remainder of that pass (zero contribution from the
throwing strategy onward), but does not abort the retry loop and never
surfaces as an invocation-level error. -/
theorem claim6_failure_containment :
    (∀ (r : SocialResult) (rest : List (Except Unit Json)),
      applyLdScript r (.error ()) = r ∧
      List.foldl applyLdScript r (.error () :: rest) =
        List.foldl applyLdScript r rest) ∧
    (∀ (pg : Page) (r : SocialResult), pg.failHeaderQuery = true →
      runPass pg r = (r, true)) ∧
    (∀ (url : String) (opts : SLOptions) (pg : Page),
      pg.gotoError = none → pg.failHeaderQuery = true →
      extractSocialLinks url opts pg =
        ⟨.record initResult, (mkConfig opts).maxRetries, []⟩) := by
  refine ⟨?_, ?_, ?_⟩
  · intro r rest
    have h0 : applyLdScript r (.error ()) = r := by
      simp only [applyLdScript]
    refine ⟨h0, ?_⟩
    show List.foldl applyLdScript (applyLdScript r (.error ())) rest =
      List.foldl applyLdScript r rest
    rw [h0]
  · intro pg r hf
    simp only [runPass, hf, if_true]
  · intro url opts pg hg hf
    simp only [extractSocialLinks, hg, loopAux_fault pg hf]

/-- Claim C6, witness: the containment theorem at a concrete faulty page — the
retry loop runs both of its passes and the invocation still returns a normal
record. -/
theorem claim6_witness :
    pgFaulty.failHeaderQuery = true ∧
    extractSocialLinks "example.com" ⟨none, none, some 2, none⟩ pgFaulty =
      ⟨.record initResult, 2, []⟩ :=
  ⟨rfl, claim6_failure_containment.2.2 "example.com" ⟨none, none, some 2, none⟩
    pgFaulty rfl rfl⟩

/-- Claim C7, counterexample.  The inter-pass wait is the hard-coded
`page.waitForTimeout(1000)` of source line 187: on a two-pass run configured
with `delayMs = 5`, the single recorded wait lasts 1000 ms, not 5 ms. -/
theorem claim7_counterexample :
    (extractSocialLinks "example.com" ⟨none, none, some 2, some 5⟩
      pgEmpty).waits = [1000] ∧ (1000 : Nat) ≠ 5 :=
  ⟨rfl, by decide⟩

/-- Claim C7, amended: every inter-pass wait of both retry loops lasts exactly
1000 ms, and a caller-supplied `delayMs` value has no effect whatsoever on the
invocation — the option is carried through the config spread but never
read. -/
theorem claim7_fixed_delay :
    (∀ (url : String) (opts : SLOptions) (pg : Page),
      ((extractSocialLinks url opts pg).waits).all (fun w => w == 1000) =
        true) ∧
    (∀ (fbUrl : String) (opts : SLOptions) (pg : FBPage),
      ((scrapeFacebookProfile fbUrl opts pg).waits).all (fun w => w == 1000) =
        true) ∧
    (∀ (url : String) (opts : SLOptions) (d : Option Nat) (pg : Page),
      extractSocialLinks url { opts with delayMs := d } pg =
        extractSocialLinks url opts pg) ∧
    (∀ (fbUrl : String) (opts : SLOptions) (d : Option Nat) (pg : FBPage),
      scrapeFacebookProfile fbUrl { opts with delayMs := d } pg =
        scrapeFacebookProfile fbUrl opts pg) := by
  refine ⟨?_, ?_, ?_, ?_⟩
  · intro url opts pg
    cases hg : pg.gotoError with
    | some msg => simp only [extractSocialLinks, hg]; rfl
    | none =>
      simp only [extractSocialLinks, hg]
      exact loopAux_waits pg _ _
  · intro fbUrl opts pg
    cases hg : pg.gotoError with
    | some msg => simp only [scrapeFacebookProfile, hg]; rfl
    | none =>
      simp only [scrapeFacebookProfile, hg]
      cases hc : fbCaptcha pg with
      | true => simp only [hc, if_true]; rfl
      | false =>
        simp only [hc, Bool.false_eq_true, if_false]
        exact fbLoopAux_waits pg _
  · intro url opts d pg; rfl
  · intro fbUrl opts d pg; rfl

/-- Claim C8, counterexample.  The strategy-6 regex
`(?:https?:)?\/\/[^"'>]*instagram\.com...` demands the protocol slashes
`//` before the domain: on a page whose markup contains only the bare
raw-text mention `instagram.com/acme`, the regex finds nothing and the
instagram field stays unresolved — the pipeline returns the all-empty record
after exhausting every pass, contradicting "resolved on pass 1, strategy
6". -/
theorem claim8_counterexample :
    execPlatformRegex "instagram" pgC8bare.html = none ∧
    (runPass pgC8bare initResult).1.instagram = "" ∧
    (extractSocialLinks "example.com" ⟨none, none, some 1, none⟩
      pgC8bare).output = .record initResult :=
  ⟨rfl, rfl, rfl⟩

/-- Claim C8, amended: a page whose serialized markup contains the raw-text
URL mention `https://instagram.com/acme` (the mention must include the
protocol slashes the strategy-6 regex demands) outside any anchor or metadata
leaves instagram unresolved through strategies 1-5 and resolves it through
the raw-markup regex (strategy 6) on pass 1: the invocation returns after
exactly one pass with only the instagram field set. -/
theorem claim8_raw_markup :
    after4 pgC8 initResult = initResult ∧
    stratFullScan pgC8 (after4 pgC8 initResult) = initResult ∧
    (runPass pgC8 initResult).1.instagram = "https://instagram.com/acme" ∧
    extractSocialLinks "example.com" ⟨none, none, none, none⟩ pgC8 =
      ⟨.record ⟨"", "https://instagram.com/acme", "", "", "", ""⟩, 1, []⟩ :=
  ⟨rfl, rfl, rfl, rfl⟩

/-- Claim C9: a page with zero matching signals — formalized as every
strategy contributing nothing to the fresh record — yields the record with
every field the empty sentinel, and the completeness predicate is false. -/
theorem claim9_no_signals :
    ∀ (url : String) (opts : SLOptions) (pg : Page),
      pg.gotoError = none → pg.failHeaderQuery = false →
      (∀ s ∈ strategyFns pg, s initResult = initResult) →
      (extractSocialLinks url opts pg).output = .record initResult ∧
      (∀ F, getF initResult F = "") ∧ hasSocialLinks initResult = false := by
  intro url opts pg hg hf hs
  have h1 := hs (stratHeaderFooter pg) (by simp [strategyFns])
  have h2 := hs (stratJsonLd pg) (by simp [strategyFns])
  have h3 := hs (stratRelMe pg) (by simp [strategyFns])
  have h4 := hs (stratTwitterMeta pg) (by simp [strategyFns])
  have h5 := hs (stratOgSeeAlso pg) (by simp [strategyFns])
  have h6 := hs (stratFullScan pg) (by simp [strategyFns])
  have h7 := hs (stratRegex pg) (by simp [strategyFns])
  have ha4 : after4 pg initResult = initResult := by
    unfold after4
    rw [h1, h2, h3, h4, h5]
  have ha5 : after5 pg initResult = initResult := by
    unfold after5
    rw [ha4, h6]
    simp
  have hrp : runPass pg initResult = (initResult, false) := by
    simp only [runPass, hf, Bool.false_eq_true, if_false]
    unfold afterAll
    rw [ha5, h7]
    simp
  refine ⟨?_, fun F => by cases F <;> rfl, rfl⟩
  simp only [extractSocialLinks, hg]
  rw [loopAux_fix_init pg hrp]

/-- Claim C9, witness: the zero-signal theorem at a concrete page carrying a
non-matching anchor and non-matching markup. -/
theorem claim9_witness :
    (extractSocialLinks "example.com" ⟨none, none, none, none⟩
      pgNoSignal).output = .record initResult :=
  (claim9_no_signals "example.com" ⟨none, none, none, none⟩ pgNoSignal rfl rfl
    (by
      intro s hs
      simp only [strategyFns, List.mem_cons, List.not_mem_nil, or_false] at hs
      rcases hs with rfl | rfl | rfl | rfl | rfl | rfl | rfl <;> rfl)).1

/-- Claim C10: result-shape invariant.  On every navigation-successful run —
including runs where every pass threw — the extractor returns the plain
six-string-field record (the `SocialResult` produced by the retry loop, with
no error key by construction of the `SLOutput.record` shape); the
`{ error, url }` shape appears exactly when `page.goto` rejected, carrying
that rejection's message. -/
theorem claim10_result_shape :
    ∀ (url : String) (opts : SLOptions) (pg : Page),
      (pg.gotoError = none →
        (extractSocialLinks url opts pg).output =
          .record (finalRecord pg (mkConfig opts).maxRetries)) ∧
      (∀ (m u : String),
        (extractSocialLinks url opts pg).output = .errorRecord m u →
        pg.gotoError = some m) := by
  intro url opts pg
  cases hg : pg.gotoError with
  | none =>
    constructor
    · intro _
      simp only [extractSocialLinks, hg, finalRecord]
    · intro m u hout
      simp only [extractSocialLinks, hg] at hout
      exact SLOutput.noConfusion hout
  | some msg =>
    constructor
    · intro h
      exact Option.noConfusion h
    · intro m u hout
      simp only [extractSocialLinks, hg] at hout
      injection hout with hm hu
      rw [hm]

/-- Claim C10, witness: the shape theorem at a concrete page, including a page
whose every pass threw. -/
theorem claim10_witness :
    (extractSocialLinks "example.com" ⟨none, none, none, none⟩
        pgFaulty).output =
      .record (finalRecord pgFaulty
        (mkConfig ⟨none, none, none, none⟩).maxRetries) :=
  (claim10_result_shape "example.com" ⟨none, none, none, none⟩ pgFaulty).1 rfl
